import Mathlib

/-!
Verification development for rogp/core.py.

The file shallowly embeds the two predictor classes of core.py — `Standard`
and `Warped` (a Gaussian-process surrogate and its output-warped variant) —
over the rationals, with the external collaborators (kernel library,
normalization utilities, scipy's bracketed root finder, the pyomo constraint
container) modelled abstractly from the specification.  Scalars are `ℚ`,
point sets are `Fin m → α` for an abstract point type `α`, matrices are
Mathlib matrices, the mutable constraint container is passed and returned
explicitly as a list, warnings are returned explicitly as a list of strings,
and Python exceptions are an explicit `Except` error channel.
-/

open Matrix

/-- Equality constraint `lhs == rhs`, as recorded when core.py executes
`cons.add(expr == 0)` on the externally owned constraint container; the
container itself is modelled as a `List Constraint`. -/
structure Constraint where
  lhs : ℚ
  rhs : ℚ
  deriving DecidableEq

/-- Python exception values relevant to core.py.  `runtimeError` and
`valueError` are the Python builtins actually raised; `rootNotFoundError` is
the distinguishable error type that the spec names (Modelled from the spec:
core.py itself defines no such class). -/
inductive PyError where
  | runtimeError : String → PyError
  | valueError : String → PyError
  | rootNotFoundError : PyError
  deriving DecidableEq

/-- Modelled from the spec: an output-space transform of the util module
(absent from src/) — forward normalization and inverse mean/variance
un-scaling, each an elementwise scalar map. -/
structure NormTransform where
  normalize : ℚ → ℚ
  inverse_mean : ℚ → ℚ
  inverse_variance : ℚ → ℚ

/-- Modelled from the spec: an input-space transform of the util module,
acting pointwise on query points. -/
structure XTransform (α : Type) where
  normalize : α → α

/-- Modelled from the spec: util.Normalizer — a pair of independent
transforms, one for input space and one for output space. -/
structure Normalizer (α : Type) where
  x : XTransform α
  y : NormTransform

/-- Modelled from the spec: the module-level default normalizer of core.py,
util.IdentityNorm for both spaces. -/
def identity_norm (α : Type) : Normalizer α :=
  { x := { normalize := id },
    y := { normalize := id, inverse_mean := id, inverse_variance := id } }

/-- Embedding of class Standard of core.py after successful construction:
the extracted posterior quantities, the instantiated kernel, the likelihood
variance, the training inputs `X` (with `n` their number) and the attribute
`N = len(X)`. -/
structure Standard (α : Type) (n : ℕ) where
  norm : Normalizer α
  woodbury_vector : Fin n → ℚ
  woodbury_inv : Matrix (Fin n) (Fin n) ℚ
  kern : α → α → ℚ
  likelihood_variance : ℚ
  X : Fin n → α
  N : ℕ

/-- Modelled from the spec: a kernel's batched covariance evaluation between
two point sets is the matrix of pairwise covariances (the kernels module is
absent from src/; core.py invokes it as `kern.calc(x, X)` and `kern(x, x)`). -/
def kernCalc {α : Type} {m n : ℕ} (k : α → α → ℚ) (x : Fin m → α)
    (x2 : Fin n → α) : Matrix (Fin m) (Fin n) ℚ :=
  Matrix.of fun i j => k (x i) (x2 j)

/-- Standard._predict_mu: `mu = np.matmul(K_x_X, woodbury_vector)`. -/
def Standard._predict_mu {α : Type} {n m : ℕ} (s : Standard α n)
    (x : Fin m → α) : Fin m → ℚ :=
  (kernCalc s.kern x s.X).mulVec s.woodbury_vector

/-- Standard.predict_mu: normalize the input, compute the mean, un-scale the
output.  The optional arguments `z` and `cons` of the Python signature are
taken but never used; the externally owned container `cons` is threaded
through unchanged (state-passing embedding of the mutable container). -/
def Standard.predict_mu {α : Type} {n m : ℕ} (s : Standard α n)
    (x : Fin m → α) (z : Option ℚ) (cons : List Constraint) :
    (Fin m → ℚ) × List Constraint :=
  let x_norm := fun i => s.norm.x.normalize (x i)
  let y := s._predict_mu x_norm
  (fun i => s.norm.y.inverse_mean (y i), cons)

/-- Standard._predict_cov:
`SIG = K_x_x - K_x_X @ W_inv @ K_x_X.T` followed by
`SIG += np.diag(np.repeat(likelihood_variance, x.shape[0]))`. -/
def Standard._predict_cov {α : Type} {n m : ℕ} (s : Standard α n)
    (x : Fin m → α) : Matrix (Fin m) (Fin m) ℚ :=
  let K_x_x := kernCalc s.kern x x
  let K_x_X := kernCalc s.kern x s.X
  let SIG := K_x_x - K_x_X * s.woodbury_inv * K_x_Xᵀ
  SIG + Matrix.diagonal fun _ => s.likelihood_variance

/-- Standard.predict_cov: scale inputs, calculate covariance, un-scale the
output elementwise through the output normalizer's inverse-variance map. -/
def Standard.predict_cov {α : Type} {n m : ℕ} (s : Standard α n)
    (x : Fin m → α) : Matrix (Fin m) (Fin m) ℚ :=
  let xn := fun i => s.norm.x.normalize (x i)
  let cov_norm := s._predict_cov xn
  Matrix.of fun i j => s.norm.y.inverse_variance (cov_norm i j)

/-- Standard.predict: the pair of mean and covariance prediction. -/
def Standard.predict {α : Type} {n m : ℕ} (s : Standard α n) (x : Fin m → α) :
    (Fin m → ℚ) × Matrix (Fin m) (Fin m) ℚ :=
  ((s.predict_mu x none []).1, s.predict_cov x)

/-- Snapshot of the trained GPy model as read by Standard.__init__:
`gp.posterior.woodbury_vector`, `gp.posterior.woodbury_inv`,
`gp.likelihood.variance[0]`, `gp.kern.lengthscale[0]`, `gp.kern.variance[0]`
and `gp._predictive_variable`. -/
structure GPy (α : Type) (n : ℕ) where
  woodbury_vector : Fin n → ℚ
  woodbury_inv : Matrix (Fin n) (Fin n) ℚ
  likelihood_variance : ℚ
  lengthscale : ℚ
  variance : ℚ
  predictive_variable : Fin n → α

/-- Result of running Standard.__init__, kernel lookup included: the `kern`
attribute is present only when the kernel name resolved (`none` models the
attribute never having been assigned). -/
structure StandardInit (α : Type) (n : ℕ) where
  norm : Normalizer α
  woodbury_vector : Fin n → ℚ
  woodbury_inv : Matrix (Fin n) (Fin n) ℚ
  kern : Option (α → α → ℚ)
  likelihood_variance : ℚ
  X : Fin n → α
  N : ℕ

/-- Embedding of Standard.__init__.  Modelled from the spec: the kernels
module is absent from src/, so its registry is an abstract map from kernel
names to kernel constructors (taking lengthscale and variance), and a failed
lookup surfaces as the NotImplementedError that the `try` block catches —
per the spec, construction then only logs a message and continues.  The
returned list of strings is the log output. -/
def mkStandard {α : Type} {n : ℕ} (registry : String → Option (ℚ → ℚ → α → α → ℚ))
    (gp : GPy α n) (kernName : String) (norm : Normalizer α) :
    StandardInit α n × List String :=
  match registry kernName with
  | some mk =>
      ({ norm := norm
         woodbury_vector := gp.woodbury_vector
         woodbury_inv := gp.woodbury_inv
         kern := some (mk gp.lengthscale gp.variance)
         likelihood_variance := gp.likelihood_variance
         X := gp.predictive_variable
         N := n }, [])
  | none =>
      ({ norm := norm
         woodbury_vector := gp.woodbury_vector
         woodbury_inv := gp.woodbury_inv
         kern := none
         likelihood_variance := gp.likelihood_variance
         X := gp.predictive_variable
         N := n }, ["Kernel " ++ kernName ++ " is not implemented"])

/-- Embedding of class Warped of core.py: the Standard state plus the warping
function read from `gp.warping_function` (`d` and the `T` rows of `psi`, each
an `(a, b, c)` triple) and the tanh implementation selected by set_tanh
(pyomo's or numpy's; both are mathematically the hyperbolic tangent, so the
field is an abstract scalar map). -/
structure Warped (α : Type) (n : ℕ) extends Standard α n where
  T : ℕ
  psi : Fin T → ℚ × ℚ × ℚ
  d : ℚ
  tanh : ℚ → ℚ

/-- Warped._warp: `z = d * y` followed by the loop
`for i in range(len(mpsi)): a, b, c = mpsi[i]; z += a * tanh(b * (y + c))`,
at a single scalar entry (the numpy version applies this elementwise). -/
def Warped._warp {α : Type} {n : ℕ} (w : Warped α n) (y : ℚ) : ℚ :=
  (List.finRange w.T).foldl
    (fun z i => z + (w.psi i).1 * w.tanh ((w.psi i).2.1 * (y + (w.psi i).2.2)))
    (w.d * y)

/-- Warped.warp: scale the input through the output normalizer, then apply
the raw warp; the result stays in latent space. -/
def Warped.warp {α : Type} {n : ℕ} (w : Warped α n) (y : ℚ) : ℚ :=
  w._warp (w.norm.y.normalize y)

/-- Reversal of all axes of a rank-3 array, as numpy's `.T` performs. -/
def npT3 {i j k : ℕ} (A : Fin i → Fin j → Fin k → ℚ) :
    Fin k → Fin j → Fin i → ℚ :=
  fun z y x => A x y z

/-- Warped._warp_deriv, following the numpy broadcasting of the source:
`S = (mpsi[:, 1] * (y[:, :, None] + mpsi[:, 2])).T`, `R = tanh(S)`,
`D = 1 - R ** 2`, and
`GRAD = (d + (mpsi[:, 0:1][:, :, None] * mpsi[:, 1:2][:, :, None] * D).sum(axis=0)).T`. -/
def Warped._warp_deriv {α : Type} {n m k : ℕ} (w : Warped α n)
    (y : Matrix (Fin m) (Fin k) ℚ) : Matrix (Fin m) (Fin k) ℚ :=
  let S := npT3 fun i j t => (w.psi t).2.1 * (y i j + (w.psi t).2.2)
  let R := fun t j i => w.tanh (S t j i)
  let D := fun t j i => 1 - R t j i ^ 2
  let summed := fun j i => ∑ t, (w.psi t).1 * (w.psi t).2.1 * D t j i
  (Matrix.of fun j i => w.d + summed j i)ᵀ

/-- Warped.warp_deriv: scale the input elementwise, then apply the raw
derivative computation. -/
def Warped.warp_deriv {α : Type} {n m k : ℕ} (w : Warped α n)
    (y : Matrix (Fin m) (Fin k) ℚ) : Matrix (Fin m) (Fin k) ℚ :=
  w._warp_deriv (Matrix.of fun i j => w.norm.y.normalize (y i j))

/-- One half of the bracketed bisection underlying the root-finder model:
`steps` halvings of the bracket, keeping the half on which the function
changes sign. -/
def bisect (f : ℚ → ℚ) (lo hi : ℚ) : ℕ → ℚ × ℚ
  | 0 => (lo, hi)
  | steps + 1 =>
      if f lo * f ((lo + hi) / 2) ≤ 0 then bisect f lo ((lo + hi) / 2) steps
      else bisect f ((lo + hi) / 2) hi steps

/-- Modelled from the spec: scipy.optimize.root_scalar with a bracket (scipy
is an external collaborator).  It fails when the function does not change
sign on the bracket, and otherwise returns an approximate root — here the
midpoint after `steps` bisections, `steps` standing for scipy's iteration
budget. -/
def root_scalar (f : ℚ → ℚ) (bracket : ℚ × ℚ) (steps : ℕ) :
    Except PyError ℚ :=
  if 0 < f bracket.1 * f bracket.2 then
    Except.error (PyError.valueError ("f(a) and f(b) must have different signs"))
  else
    let r := bisect f bracket.1 bracket.2 steps
    Except.ok ((r.1 + r.2) / 2)

/-- Warped._warp_inv_scalar: root-find `_warp(y) - xi = 0` on the given
bracket; any exception from the root finder is caught by the bare `except:`
and re-raised as `RuntimeError("Failed to find root")`. -/
def Warped._warp_inv_scalar {α : Type} {n : ℕ} (w : Warped α n) (xi : ℚ)
    (bracket : ℚ × ℚ) (steps : ℕ) : Except PyError ℚ :=
  match root_scalar (fun y => w._warp y - xi) bracket steps with
  | Except.ok r => Except.ok r
  | Except.error _ => Except.error (PyError.runtimeError ("Failed to find root"))

/-- Warped.warp_inv: elementwise vectorized scalar inversion with the default
bracket `(-2.5, 2.5)`, un-scaled through the output normalizer's inverse
mean. -/
def Warped.warp_inv {α : Type} {n m : ℕ} (w : Warped α n) (xi : Fin m → ℚ)
    (steps : ℕ) : Fin m → Except PyError ℚ :=
  fun i =>
    (w._warp_inv_scalar (xi i) (-2.5, 2.5) steps).map w.norm.y.inverse_mean

/-- Warped.warp_inv_scalar: normalize the bracket into latent units, invert,
and un-scale the root back to observed units. -/
def Warped.warp_inv_scalar {α : Type} {n : ℕ} (w : Warped α n) (xi : ℚ)
    (bracket : ℚ × ℚ) (steps : ℕ) : Except PyError ℚ :=
  let b := (w.norm.y.normalize bracket.1, w.norm.y.normalize bracket.2)
  (w._warp_inv_scalar xi b steps).map w.norm.y.inverse_mean

/-- Warped.predict_mu: normalize `x`, compute the latent mean `z`, form the
elementwise difference `warp(y) - z`, add one equality constraint per entry
to the supplied container (in iteration order, as `np.nditer` does), and
return `y`. -/
def Warped.predict_mu {α : Type} {n m : ℕ} (w : Warped α n) (x : Fin m → α)
    (y : Fin m → ℚ) (cons : List Constraint) :
    (Fin m → ℚ) × List Constraint :=
  let x_norm := fun i => w.norm.x.normalize (x i)
  let z := w.toStandard._predict_mu x_norm
  let diff := fun i => w.warp (y i) - z i
  let cons2 := (List.ofFn diff).foldl (fun cs dv => cs ++ [{ lhs := dv, rhs := 0 }]) cons
  (y, cons2)

/-- Warped.predict_mu_latent: normalized input, raw mean, no un-scaling. -/
def Warped.predict_mu_latent {α : Type} {n m : ℕ} (w : Warped α n)
    (x : Fin m → α) : Fin m → ℚ :=
  w.toStandard._predict_mu fun i => w.norm.x.normalize (x i)

/-- Warped.predict_cov_latent: normalized input, raw covariance, no
un-scaling. -/
def Warped.predict_cov_latent {α : Type} {n m : ℕ} (w : Warped α n)
    (x : Fin m → α) : Matrix (Fin m) (Fin m) ℚ :=
  w.toStandard._predict_cov fun i => w.norm.x.normalize (x i)

/-- Warped.predict_latent: the latent mean/covariance pair. -/
def Warped.predict_latent {α : Type} {n m : ℕ} (w : Warped α n)
    (x : Fin m → α) : (Fin m → ℚ) × Matrix (Fin m) (Fin m) ℚ :=
  (w.predict_mu_latent x, w.predict_cov_latent x)

/-- Warped.predict: delegates to Warped.predict_mu. -/
def Warped.predict {α : Type} {n m : ℕ} (w : Warped α n) (x : Fin m → α)
    (z : Fin m → ℚ) (cons : List Constraint) :
    (Fin m → ℚ) × List Constraint :=
  w.predict_mu x z cons

/-- Warped.predict_cov: emits the fallback warning and returns the latent
covariance; the emitted warnings are the first component. -/
def Warped.predict_cov {α : Type} {n m : ℕ} (w : Warped α n)
    (x : Fin m → α) : List String × Matrix (Fin m) (Fin m) ℚ :=
  (["Cant predict variance in observation space."
      ++ " Predicting in latent space instead"],
   w.predict_cov_latent x)

/-- Positive semidefiniteness of a rational matrix: every quadratic-form
value is nonnegative. -/
def PSDQ {m : ℕ} (A : Matrix (Fin m) (Fin m) ℚ) : Prop :=
  ∀ v : Fin m → ℚ, 0 ≤ v ⬝ᵥ A.mulVec v

theorem foldl_add_eq_sum {β : Type} (g : β → ℚ) (l : List β) (init : ℚ) :
    l.foldl (fun z i => z + g i) init = init + (l.map g).sum := by
  induction l generalizing init with
  | nil => simp
  | cons a t ih => simp [ih, add_assoc]

theorem foldl_append_eq_map {β : Type} (g : β → Constraint) (l : List β)
    (cons : List Constraint) :
    l.foldl (fun cs dv => cs ++ [g dv]) cons = cons ++ l.map g := by
  induction l generalizing cons with
  | nil => simp
  | cons a t ih => simp [ih]

/-- C5: Warped.warp first normalizes the input through the output normalizer
and then returns `d * y_norm + Σ_i a_i * tanh (b_i * (y_norm + c_i))`, summed
over all warping terms and with no un-scaling of the result. -/
theorem C5_warp_formula {α : Type} {n : ℕ} (w : Warped α n) (y : ℚ) :
    w.warp y = w.d * w.norm.y.normalize y
      + ∑ t, (w.psi t).1
          * w.tanh ((w.psi t).2.1 * (w.norm.y.normalize y + (w.psi t).2.2)) := by
  unfold Warped.warp Warped._warp
  rw [foldl_add_eq_sum, ← List.ofFn_eq_map, List.sum_ofFn]

/-- C6: Warped.warp_deriv normalizes the input and returns, at every entry of
a two-dimensional input (extra leading dimension beyond the per-term axis),
the analytic derivative `d + Σ_i a_i * b_i * (1 - tanh (b_i * (y + c_i))^2)`
of the warp. -/
theorem C6_warp_deriv_formula {α : Type} {n m k : ℕ} (w : Warped α n)
    (y : Matrix (Fin m) (Fin k) ℚ) (i : Fin m) (j : Fin k) :
    w.warp_deriv y i j = w.d + ∑ t, (w.psi t).1 * (w.psi t).2.1
      * (1 - w.tanh ((w.psi t).2.1
            * (w.norm.y.normalize (y i j) + (w.psi t).2.2)) ^ 2) := by
  simp [Warped.warp_deriv, Warped._warp_deriv, npT3]

/-- C9: Warped.predict_cov returns exactly the matrix computed by
Warped.predict_cov_latent, together with a non-empty warning output; it is a
total function, so the warp can never make it fail. -/
theorem C9_predict_cov_fallback {α : Type} {n m : ℕ} (w : Warped α n)
    (x : Fin m → α) :
    (w.predict_cov x).2 = w.predict_cov_latent x ∧ (w.predict_cov x).1 ≠ [] :=
  ⟨rfl, by simp [Warped.predict_cov]⟩

/-- C10: Standard.predict_mu ignores its optional arguments `z` and `cons`:
the returned mean is the same for every choice of them, and the constraint
container after the call is exactly the container before the call. -/
theorem C10_predict_mu_frame {α : Type} {n m : ℕ} (s : Standard α n)
    (x : Fin m → α) (z1 z2 : Option ℚ) (cons1 cons2 : List Constraint) :
    (s.predict_mu x z1 cons1).1 = (s.predict_mu x z2 cons2).1 ∧
    (s.predict_mu x z1 cons1).2 = cons1 :=
  ⟨rfl, rfl⟩

/-- C1: Warped.predict_mu computes the latent mean `z` at the normalized `x`
and appends to the supplied container exactly one equality constraint
`warp (y_i) - z_i == 0` per entry of the elementwise difference, returning
`y` unchanged. -/
theorem C1_constraint_coupling {α : Type} {n m : ℕ} (w : Warped α n)
    (x : Fin m → α) (y : Fin m → ℚ) (cons : List Constraint) :
    w.predict_mu x y cons =
      (y, cons ++ List.ofFn fun i =>
        { lhs := w.warp (y i) - w.predict_mu_latent x i, rhs := 0 }) := by
  unfold Warped.predict_mu
  dsimp only
  rw [foldl_append_eq_map, List.map_ofFn]
  rfl

/-- C2: Standard.predict_cov normalizes the query points, evaluates
`K(x,x) - K(x,X) * Winv * K(x,X)ᵀ` at the normalized points, adds the
likelihood variance on the diagonal after that kernel algebra, and applies
the inverse-variance un-scaling outermost. -/
theorem C2_predict_cov_pipeline {α : Type} {n m : ℕ} (s : Standard α n)
    (x : Fin m → α) (i j : Fin m) :
    s.predict_cov x i j = s.norm.y.inverse_variance
      (s.kern (s.norm.x.normalize (x i)) (s.norm.x.normalize (x j))
        - (∑ b, (∑ a, s.kern (s.norm.x.normalize (x i)) (s.X a)
              * s.woodbury_inv a b)
            * s.kern (s.norm.x.normalize (x j)) (s.X b))
        + if i = j then s.likelihood_variance else 0) := by
  simp [Standard.predict_cov, Standard._predict_cov, kernCalc,
    Matrix.mul_apply, Matrix.sub_apply, Matrix.add_apply,
    Matrix.diagonal_apply, Matrix.transpose_apply]

/-- C3: when the requested kernel name has no implementation in the registry,
construction does not fail: it returns a predictor value with no kernel
(`kern = none`) while the likelihood variance, the training inputs and `N`
are all still set, and only a log message is produced. -/
theorem C3_kernel_lookup_failure {α : Type} {n : ℕ}
    (registry : String → Option (ℚ → ℚ → α → α → ℚ)) (gp : GPy α n)
    (kernName : String) (norm : Normalizer α)
    (h : registry kernName = none) :
    mkStandard registry gp kernName norm =
      ({ norm := norm
         woodbury_vector := gp.woodbury_vector
         woodbury_inv := gp.woodbury_inv
         kern := none
         likelihood_variance := gp.likelihood_variance
         X := gp.predictive_variable
         N := n },
       ["Kernel " ++ kernName ++ " is not implemented"]) := by
  unfold mkStandard
  rw [h]

/-- Concrete trained-model snapshot used by witnesses. -/
def gp0 : GPy ℚ 1 :=
  { woodbury_vector := fun _ => 0
    woodbury_inv := fun _ _ => 0
    likelihood_variance := 1
    lengthscale := 1
    variance := 1
    predictive_variable := fun _ => 0 }

/-- Witness for C3 at a concrete empty registry and a concrete model. -/
theorem C3_witness :
    (fun _ : String => (none : Option (ℚ → ℚ → ℚ → ℚ → ℚ))) "RBF" = none ∧
    mkStandard (fun _ => none) gp0 ("RBF") (identity_norm ℚ) =
      ({ norm := identity_norm ℚ
         woodbury_vector := gp0.woodbury_vector
         woodbury_inv := gp0.woodbury_inv
         kern := none
         likelihood_variance := gp0.likelihood_variance
         X := gp0.predictive_variable
         N := 1 },
       ["Kernel " ++ "RBF" ++ " is not implemented"]) :=
  ⟨rfl, C3_kernel_lookup_failure (fun _ => none) gp0 ("RBF") (identity_norm ℚ) rfl⟩

/-- Identity-normalized warped predictor whose warp is the identity map
(`d = 1`, no tanh terms), used as a concrete instance by witnesses and
counterexamples. -/
def wId : Warped ℚ 1 :=
  { norm := identity_norm ℚ
    woodbury_vector := fun _ => 0
    woodbury_inv := fun _ _ => 0
    kern := fun _ _ => 0
    likelihood_variance := 0
    X := fun _ => 0
    N := 1
    T := 0
    psi := Fin.elim0
    d := 1
    tanh := id }

/-- Counterexample to C4: at a bracket with no sign change the failure is the
generic `RuntimeError("Failed to find root")` raised by core.py, which is not
the distinguishable `RootNotFoundError` type the claim names. -/
theorem C4_counterexample :
    wId.warp_inv_scalar 10 (-1, 1) 5 =
      Except.error (PyError.runtimeError ("Failed to find root")) ∧
    PyError.runtimeError ("Failed to find root") ≠ PyError.rootNotFoundError := by
  constructor
  · unfold Warped.warp_inv_scalar Warped._warp_inv_scalar root_scalar
    dsimp only
    have hnil : List.finRange wId.T = ([] : List (Fin wId.T)) := rfl
    rw [if_pos (by norm_num [Warped._warp, wId, identity_norm, hnil])]
    rfl
  · exact fun h => PyError.noConfusion h

/-- C4 as amended: when the normalized bracket exhibits no sign change of
`_warp(y) - xi`, Warped.warp_inv_scalar fails with the generic
`RuntimeError("Failed to find root")` — distinguishable only by its message,
not by a dedicated error type. -/
theorem C4_generic_root_failure {α : Type} {n : ℕ} (w : Warped α n) (xi : ℚ)
    (bracket : ℚ × ℚ) (steps : ℕ)
    (h : 0 < (w._warp (w.norm.y.normalize bracket.1) - xi)
        * (w._warp (w.norm.y.normalize bracket.2) - xi)) :
    w.warp_inv_scalar xi bracket steps =
      Except.error (PyError.runtimeError ("Failed to find root")) := by
  unfold Warped.warp_inv_scalar Warped._warp_inv_scalar root_scalar
  dsimp only
  rw [if_pos h]
  rfl

/-- Witness for the amended C4 at a concrete predictor and bracket. -/
theorem C4_witness :
    (0 : ℚ) < (wId._warp (wId.norm.y.normalize (-1)) - 10)
        * (wId._warp (wId.norm.y.normalize 1) - 10) ∧
    wId.warp_inv_scalar 10 (-1, 1) 5 =
      Except.error (PyError.runtimeError ("Failed to find root")) := by
  have h : (0 : ℚ) < (wId._warp (wId.norm.y.normalize (-1)) - 10)
      * (wId._warp (wId.norm.y.normalize 1) - 10) := by
    have hnil : List.finRange wId.T = ([] : List (Fin wId.T)) := rfl
    norm_num [Warped._warp, wId, identity_norm, hnil]
  exact ⟨h, C4_generic_root_failure wId 10 (-1, 1) 5 h⟩

theorem bisect_invariant (f : ℚ → ℚ) (hf : StrictMono f) (t : ℚ) (ht : f t = 0)
    (steps : ℕ) :
    ∀ lo hi : ℚ, lo ≤ t → t ≤ hi →
      (bisect f lo hi steps).1 ≤ t ∧ t ≤ (bisect f lo hi steps).2 ∧
      (bisect f lo hi steps).2 - (bisect f lo hi steps).1 = (hi - lo) / 2 ^ steps := by
  induction steps with
  | zero =>
      intro lo hi hlo hhi
      exact ⟨hlo, hhi, by simp [bisect]⟩
  | succ k ih =>
      intro lo hi hlo hhi
      have hflo : f lo ≤ 0 := by
        rw [← ht]
        exact hf.monotone hlo
      by_cases hbr : f lo * f ((lo + hi) / 2) ≤ 0
      · have htm : t ≤ (lo + hi) / 2 := by
          by_contra hc
          push_neg at hc
          have hfm : f ((lo + hi) / 2) < 0 := by
            rw [← ht]
            exact hf hc
          have h0le : 0 ≤ f lo := by nlinarith
          have hlot : lo = t := hf.injective ((le_antisymm hflo h0le).trans ht.symm)
          rw [hlot] at hc
          linarith
        have h3 := ih lo ((lo + hi) / 2) hlo htm
        have hb : bisect f lo hi (k + 1) = bisect f lo ((lo + hi) / 2) k := by
          simp only [bisect]
          rw [if_pos hbr]
        rw [hb]
        refine ⟨h3.1, h3.2.1, ?_⟩
        rw [h3.2.2]
        ring
      · push_neg at hbr
        have hmt : (lo + hi) / 2 ≤ t := by
          by_contra hc
          push_neg at hc
          have hfm : 0 < f ((lo + hi) / 2) := by
            rw [← ht]
            exact hf hc
          nlinarith
        have h3 := ih ((lo + hi) / 2) hi hmt hhi
        have hb : bisect f lo hi (k + 1) = bisect f ((lo + hi) / 2) hi k := by
          simp only [bisect]
          rw [if_neg (not_le.mpr hbr)]
        rw [hb]
        refine ⟨h3.1, h3.2.1, ?_⟩
        rw [h3.2.2]
        ring

/-- C7: for a predictor whose latent warp is strictly monotone, a point `y0`
and a bracket whose normalization encloses the normalized `y0`, inverting the
warp at `warp y0` succeeds and returns `y0` up to the root-finding tolerance
`L * (normalized bracket width) / 2 ^ steps`, where the output normalizer's
forward/inverse pair are exact inverses and its inverse mean is
`L`-Lipschitz. -/
theorem C7_warp_inv_roundtrip {α : Type} {n : ℕ} (w : Warped α n)
    (L y0 b1 b2 : ℚ) (steps : ℕ)
    (hmono : StrictMono w._warp)
    (hinv : ∀ t, w.norm.y.inverse_mean (w.norm.y.normalize t) = t)
    (hL : ∀ u v, |w.norm.y.inverse_mean u - w.norm.y.inverse_mean v|
        ≤ L * |u - v|)
    (hlo : w.norm.y.normalize b1 ≤ w.norm.y.normalize y0)
    (hhi : w.norm.y.normalize y0 ≤ w.norm.y.normalize b2) :
    ∃ r, w.warp_inv_scalar (w.warp y0) (b1, b2) steps = Except.ok r ∧
      |r - y0| ≤ L * ((w.norm.y.normalize b2 - w.norm.y.normalize b1)
        / 2 ^ steps) := by
  have hwt : w.warp y0 = w._warp (w.norm.y.normalize y0) := rfl
  have hfm : StrictMono fun y => w._warp y - w.warp y0 :=
    fun a b hab => sub_lt_sub_right (hmono hab) _
  have hft : (fun y => w._warp y - w.warp y0) (w.norm.y.normalize y0) = 0 := by
    simp only [hwt]
    exact sub_self _
  have hfa : w._warp (w.norm.y.normalize b1) - w.warp y0 ≤ 0 := by
    rw [hwt]
    exact sub_nonpos.mpr (hmono.monotone hlo)
  have hfb : 0 ≤ w._warp (w.norm.y.normalize b2) - w.warp y0 := by
    rw [hwt]
    exact sub_nonneg.mpr (hmono.monotone hhi)
  have hcond : ¬ (0 < (w._warp (w.norm.y.normalize b1) - w.warp y0)
      * (w._warp (w.norm.y.normalize b2) - w.warp y0)) := by nlinarith
  obtain ⟨h1, h2, h3⟩ := bisect_invariant (fun y => w._warp y - w.warp y0) hfm
    (w.norm.y.normalize y0) hft steps (w.norm.y.normalize b1)
    (w.norm.y.normalize b2) hlo hhi
  have hL0 : 0 ≤ L := by
    have h01 := hL 0 1
    have habs := abs_nonneg (w.norm.y.inverse_mean 0 - w.norm.y.inverse_mean 1)
    rw [show |(0 : ℚ) - 1| = 1 by norm_num, mul_one] at h01
    linarith
  unfold Warped.warp_inv_scalar Warped._warp_inv_scalar root_scalar
  dsimp only
  rw [if_neg hcond]
  refine ⟨_, rfl, ?_⟩
  have hmid : |((bisect (fun y => w._warp y - w.warp y0)
        (w.norm.y.normalize b1) (w.norm.y.normalize b2) steps).1
      + (bisect (fun y => w._warp y - w.warp y0) (w.norm.y.normalize b1)
        (w.norm.y.normalize b2) steps).2) / 2 - w.norm.y.normalize y0|
      ≤ (w.norm.y.normalize b2 - w.norm.y.normalize b1) / 2 ^ steps := by
    rw [← h3, abs_le]
    constructor <;> linarith
  have key := le_trans (hL (((bisect (fun y => w._warp y - w.warp y0)
      (w.norm.y.normalize b1) (w.norm.y.normalize b2) steps).1
    + (bisect (fun y => w._warp y - w.warp y0) (w.norm.y.normalize b1)
      (w.norm.y.normalize b2) steps).2) / 2) (w.norm.y.normalize y0))
    (mul_le_mul_of_nonneg_left hmid hL0)
  rw [hinv y0] at key
  exact key

/-- Witness for C7 at the identity-warp predictor, root `0`, bracket
`(-1, 1)` and two bisection steps. -/
theorem C7_witness :
    ∃ r, wId.warp_inv_scalar (wId.warp 0) (-1, 1) 2 = Except.ok r ∧
      |r - 0| ≤ 1 * ((wId.norm.y.normalize 1 - wId.norm.y.normalize (-1))
        / 2 ^ 2) := by
  have hw : ∀ q : ℚ, wId._warp q = q := by
    intro q
    have hnil : List.finRange wId.T = ([] : List (Fin wId.T)) := rfl
    simp [Warped._warp, hnil, wId]
  exact C7_warp_inv_roundtrip wId 1 0 (-1) 1 2
    (fun a b hab => by simpa only [hw] using hab)
    (fun t => rfl)
    (fun u v => by simp [wId, identity_norm])
    (by norm_num [wId, identity_norm])
    (by norm_num [wId, identity_norm])

theorem PSDQ_diag_nonneg {m : ℕ} {A : Matrix (Fin m) (Fin m) ℚ} (hA : PSDQ A)
    (i : Fin m) : 0 ≤ A i i := by
  have h := hA (Pi.single i 1)
  simpa [Matrix.mulVec, Matrix.dotProduct, Pi.single_apply,
    Finset.sum_ite_eq] using h

theorem SIG_isSymm {m n : ℕ} (Kxx : Matrix (Fin m) (Fin m) ℚ)
    (A : Matrix (Fin m) (Fin n) ℚ) (W : Matrix (Fin n) (Fin n) ℚ) (lv : ℚ)
    (hKs : Kxx.IsSymm) (hW : W.IsSymm) :
    (Kxx - A * W * Aᵀ + Matrix.diagonal fun _ => lv).IsSymm := by
  have hP : (A * W * Aᵀ)ᵀ = A * W * Aᵀ := by
    rw [Matrix.transpose_mul, Matrix.transpose_mul, Matrix.transpose_transpose,
      hW.eq, Matrix.mul_assoc]
  show (Kxx - A * W * Aᵀ + Matrix.diagonal fun _ => lv)ᵀ
      = Kxx - A * W * Aᵀ + Matrix.diagonal fun _ => lv
  rw [Matrix.transpose_add, Matrix.transpose_sub, hP, hKs.eq,
    Matrix.diagonal_transpose]

theorem SIG_diag_ge {m n : ℕ} (Kxx : Matrix (Fin m) (Fin m) ℚ)
    (A : Matrix (Fin m) (Fin n) ℚ) (W : Matrix (Fin n) (Fin n) ℚ) (lv : ℚ)
    (hSchur : PSDQ (Kxx - A * W * Aᵀ)) (i : Fin m) :
    lv ≤ ((Kxx - A * W * Aᵀ + Matrix.diagonal (fun _ => lv) :
      Matrix (Fin m) (Fin m) ℚ)) i i := by
  have h := PSDQ_diag_nonneg hSchur i
  rw [Matrix.add_apply, Matrix.diagonal_apply_eq]
  linarith

/-- Standard predictor over 1-dimensional rational points with a dot-product
kernel and an inflated posterior inverse-covariance, used to refute the C8
diagonal bound. -/
def s0 : Standard ℚ 1 :=
  { norm := identity_norm ℚ
    woodbury_vector := fun _ => 0
    woodbury_inv := fun _ _ => 2
    kern := fun u v => u * v
    likelihood_variance := 1
    X := fun _ => 1
    N := 1 }

/-- Counterexample to C8: with a symmetric positive-semidefinite kernel
(dot product, whose Gram matrices over the queried and training points are
positive semidefinite) and a symmetric positive-semidefinite posterior
inverse-covariance, the returned diagonal entry still falls strictly below
the likelihood variance. -/
theorem C8_counterexample :
    PSDQ (kernCalc s0.kern (fun _ : Fin 2 => (1 : ℚ)) (fun _ : Fin 2 => (1 : ℚ))) ∧
    (kernCalc s0.kern (fun _ : Fin 1 => (1 : ℚ)) (fun _ : Fin 1 => (1 : ℚ))).IsSymm ∧
    PSDQ s0.woodbury_inv ∧ s0.woodbury_inv.IsSymm ∧
    s0.predict_cov (fun _ : Fin 1 => (1 : ℚ)) 0 0 < s0.likelihood_variance := by
  refine ⟨?_, Matrix.ext fun i j => rfl, ?_, rfl, ?_⟩
  · intro v
    simp only [kernCalc, s0, Matrix.of_apply, Matrix.dotProduct, Matrix.mulVec,
      Fin.sum_univ_two, one_mul, mul_one]
    nlinarith [sq_nonneg (v 0 + v 1)]
  · intro v
    simp only [s0, Matrix.dotProduct, Matrix.mulVec, Fin.sum_univ_one]
    nlinarith [sq_nonneg (v 0)]
  · have hval : s0.predict_cov (fun _ : Fin 1 => (1 : ℚ)) 0 0 = 0 := by
      simp [Standard.predict_cov, Standard._predict_cov, kernCalc, s0,
        identity_norm, Matrix.sub_apply, Matrix.add_apply, Matrix.mul_apply,
        Matrix.diagonal_apply, Matrix.transpose_apply, Fin.sum_univ_one]
      norm_num
    rw [hval]
    norm_num [s0]

/-- C8 as amended: Standard.predict_cov returns a symmetric matrix assuming
only that the kernel evaluation is symmetric and that the posterior
inverse-covariance is symmetric (elementwise inverse-variance un-scaling
preserves symmetry); its diagonal entries dominate the likelihood variance
under the additional assumptions that the posterior Schur complement
`K(x,x) - K(x,X) * Winv * K(x,X)ᵀ` at the normalized query points is positive
semidefinite (positive semidefiniteness of the kernel and of `Winv` alone
does not suffice) and that the output inverse-variance un-scaling is the
identity. -/
theorem C8_cov_symm_diag {α : Type} {n m : ℕ} (s : Standard α n)
    (x : Fin m → α)
    (hk : ∀ u v, s.kern u v = s.kern v u)
    (hW : s.woodbury_inv.IsSymm) :
    (s.predict_cov x).IsSymm ∧
    ((∀ q, s.norm.y.inverse_variance q = q) →
      PSDQ (kernCalc s.kern (fun a => s.norm.x.normalize (x a))
          (fun a => s.norm.x.normalize (x a))
        - kernCalc s.kern (fun a => s.norm.x.normalize (x a)) s.X
          * s.woodbury_inv
          * (kernCalc s.kern (fun a => s.norm.x.normalize (x a)) s.X)ᵀ) →
      ∀ i, s.likelihood_variance ≤ s.predict_cov x i i) := by
  have hpc : (s._predict_cov fun a => s.norm.x.normalize (x a))
      = kernCalc s.kern (fun a => s.norm.x.normalize (x a))
          (fun a => s.norm.x.normalize (x a))
        - kernCalc s.kern (fun a => s.norm.x.normalize (x a)) s.X
          * s.woodbury_inv
          * (kernCalc s.kern (fun a => s.norm.x.normalize (x a)) s.X)ᵀ
        + Matrix.diagonal fun _ => s.likelihood_variance := rfl
  have hKs : (kernCalc s.kern (fun a => s.norm.x.normalize (x a))
      (fun a => s.norm.x.normalize (x a))).IsSymm := by
    show (kernCalc s.kern (fun a => s.norm.x.normalize (x a))
        (fun a => s.norm.x.normalize (x a)))ᵀ
      = kernCalc s.kern (fun a => s.norm.x.normalize (x a))
        (fun a => s.norm.x.normalize (x a))
    apply Matrix.ext
    intro i j
    simp only [Matrix.transpose_apply, kernCalc, Matrix.of_apply]
    exact hk _ _
  have hSIG : (s._predict_cov fun a => s.norm.x.normalize (x a)).IsSymm := by
    rw [hpc]
    exact SIG_isSymm _ _ _ _ hKs hW
  constructor
  · show (s.predict_cov x)ᵀ = s.predict_cov x
    apply Matrix.ext
    intro i j
    have hji : s.predict_cov x j i = s.norm.y.inverse_variance
        ((s._predict_cov fun a => s.norm.x.normalize (x a)) j i) := rfl
    have hij : s.predict_cov x i j = s.norm.y.inverse_variance
        ((s._predict_cov fun a => s.norm.x.normalize (x a)) i j) := rfl
    rw [Matrix.transpose_apply, hji, hij]
    have hs := congrFun (congrFun hSIG.eq i) j
    rw [Matrix.transpose_apply] at hs
    exact congrArg _ hs
  · intro hid hSchur i
    have hcov : s.predict_cov x
        = s._predict_cov fun a => s.norm.x.normalize (x a) := by
      apply Matrix.ext
      intro a b
      simp [Standard.predict_cov, hid]
    rw [hcov, hpc]
    exact SIG_diag_ge _ _ _ _ hSchur i

/-- Standard predictor with a consistent posterior (the Schur complement at
the query point vanishes), used as the witness instance for the amended C8. -/
def sOk : Standard ℚ 1 :=
  { norm := identity_norm ℚ
    woodbury_vector := fun _ => 0
    woodbury_inv := fun _ _ => 1
    kern := fun u v => u * v
    likelihood_variance := 1
    X := fun _ => 1
    N := 1 }

/-- Witness for the amended C8 at a concrete consistent predictor. -/
theorem C8_witness :
    (sOk.predict_cov fun _ : Fin 1 => (1 : ℚ)).IsSymm ∧
    sOk.likelihood_variance ≤ sOk.predict_cov (fun _ : Fin 1 => (1 : ℚ)) 0 0 := by
  have hSchur : PSDQ (kernCalc sOk.kern
      (fun a : Fin 1 => sOk.norm.x.normalize ((fun _ : Fin 1 => (1 : ℚ)) a))
      (fun a : Fin 1 => sOk.norm.x.normalize ((fun _ : Fin 1 => (1 : ℚ)) a))
    - kernCalc sOk.kern
        (fun a : Fin 1 => sOk.norm.x.normalize ((fun _ : Fin 1 => (1 : ℚ)) a))
        sOk.X * sOk.woodbury_inv
      * (kernCalc sOk.kern
          (fun a : Fin 1 => sOk.norm.x.normalize ((fun _ : Fin 1 => (1 : ℚ)) a))
          sOk.X)ᵀ) := by
    intro v
    simp [kernCalc, sOk, identity_norm, Matrix.dotProduct, Matrix.mulVec,
      Matrix.sub_apply, Matrix.mul_apply, Matrix.transpose_apply,
      Fin.sum_univ_one]
  have h := C8_cov_symm_diag sOk (fun _ : Fin 1 => (1 : ℚ))
    (fun u v => mul_comm u v) rfl
  exact ⟨h.1, h.2 (fun q => rfl) hSchur 0⟩
